import Mathlib

/-!
Shallow embedding of the FIRE/Retirement planner core (`src/app.py`).

The core consists of the projection engine `project` (section 4 of the
file) and the goal-seek wrapper `gap_to_target` / `brentq` (section 7).
Money amounts and rates are modelled as exact rationals; the year/age
columns are naturals.  The imperative numpy loop (arrays `salary`,
`savings`, `portf`, in-place zeroing `salary[i+1:] = 0` at the first
retirement trigger) is embedded as a fuelled state recursion `loop`
returning, for each year index, the nominal portfolio value together
with the `retired` flag, from which every column of the displayed
data frame is derived.
-/

namespace Fire

/-- All sidebar inputs read by the core (`curr_age`, `curr_sal`,
`sal_growth`, `save_rate`, `curr_portf`, `pre_ret`, `post_ret`, `infl`,
`swr`, `tax`, `pension`, `desire_sp`) together with the goal-seek
targets `nest_target` and `age_target` and the start year. -/
structure Params where
  startYear : ℕ
  currAge : ℕ
  currSal : ℚ
  salGrowth : ℚ
  saveRate : ℚ
  currPortf : ℚ
  preRet : ℚ
  postRet : ℚ
  infl : ℚ
  swr : ℚ
  tax : ℚ
  pension : ℚ
  desireSp : ℚ
  nestTarget : ℚ
  ageTarget : ℚ
  deriving Repr, DecidableEq

/-- `salary[i]` as initialised before the loop:
`salary[0] = curr_sal`, `salary[i] = salary[i-1]*(1+sal_growth_)`. -/
def origSalary (p : Params) (i : ℕ) : ℚ :=
  p.currSal * (1 + p.salGrowth) ^ i

/-- The body of the eligibility test at line 150 of `app.py`, applied to
the already-computed portfolio value `pf` of row `i`:
`(real_wd[i] + real_pen >= desire_sp) and (age[i] >= curr_age)`. -/
def trigAt (p : Params) (i : ℕ) (pf : ℚ) : Bool :=
  decide (p.desireSp ≤ pf / (1 + p.infl) ^ i * p.swr * (1 - p.tax) +
      (if 65 ≤ p.currAge + i then p.pension else 0)) &&
    decide (p.currAge ≤ p.currAge + i)

/-- The main loop of `project`: returns `(portf[i], retired-after-row-i)`.
Row `i+1` reads `savings[i+1]`, which the in-place zeroing
`savings[i+1:] = 0` has set to `0` exactly when some earlier row already
triggered, and grows the portfolio at `pre_ret_` before the trigger and
`post_ret` afterwards. -/
def loop (p : Params) : ℕ → ℚ × Bool
  | 0 => (p.currPortf, trigAt p 0 p.currPortf)
  | i + 1 =>
    let s := loop p i
    let sav := if s.2 then 0 else origSalary p (i + 1) * p.saveRate
    let g := if s.2 then p.postRet else p.preRet
    let pf := s.1 + sav + s.1 * g
    (pf, s.2 || trigAt p (i + 1) pf)

/-- `portf[i]`: the nominal portfolio value of row `i` ("Portfolio"). -/
def portf (p : Params) (i : ℕ) : ℚ := (loop p i).1

/-- Whether some row strictly before row `i` satisfied the eligibility
test (the `retired` flag as read at the start of iteration `i`). -/
def retiredBefore (p : Params) : ℕ → Bool
  | 0 => false
  | i + 1 => (loop p i).2

/-- `can_retire[i] = "YES"`: the eligibility test holds at row `i`. -/
def canRetire (p : Params) (i : ℕ) : Bool :=
  trigAt p i (portf p i)

/-- `salary[i]` as it stands after the run (the "Salary" column): the
original geometric salary, zeroed from the first trigger onwards. -/
def salary (p : Params) (i : ℕ) : ℚ :=
  if retiredBefore p i then 0 else origSalary p i

/-- `savings[i]` as it stands after the run (the "Savings" column). -/
def savings (p : Params) (i : ℕ) : ℚ := salary p i * p.saveRate

/-- `real_portf[i] = portf[i] / (1+infl)^(years[i]-today_year)`. -/
def realPortf (p : Params) (i : ℕ) : ℚ :=
  portf p i / (1 + p.infl) ^ i

/-- `real_wd[i] = real_portf[i]*swr*(1-tax)`. -/
def realWd (p : Params) (i : ℕ) : ℚ :=
  realPortf p i * p.swr * (1 - p.tax)

/-- `real_pen = pension if age[i] >= 65 else 0`. -/
def realPen (p : Params) (i : ℕ) : ℚ :=
  if 65 ≤ p.currAge + i then p.pension else 0

/-- The growth rate used in the portfolio update of row `i`:
`pre_ret_ if not retired else post_ret`. -/
def growthRate (p : Params) (i : ℕ) : ℚ :=
  if retiredBefore p i then p.postRet else p.preRet

/-- `first_yes`: index of the first row whose eligibility test holds,
within the 80 simulated years. -/
def firstYes (p : Params) : Option ℕ :=
  (List.range 80).find? (fun i => canRetire p i)

/-- One row of the displayed data frame. -/
structure Row where
  year : ℕ
  age : ℕ
  rowSalary : ℚ
  rowSavings : ℚ
  portfolio : ℚ
  realPortfolio : ℚ
  realWithdrawal : ℚ
  rowCanRetire : Bool
  deriving Repr, DecidableEq

/-- Fallback row used with `List.getD`. -/
def dummyRow : Row := ⟨0, 0, 0, 0, 0, 0, 0, false⟩

/-- Row `i` of the data frame built at the end of `project`. -/
def mkRow (p : Params) (i : ℕ) : Row :=
  ⟨p.startYear + i, p.currAge + i, salary p i, savings p i, portf p i,
    realPortf p i, realWd p i, canRetire p i⟩

/-- The full 80-row data frame returned by `project`. -/
def projectRows (p : Params) : List Row :=
  (List.range 80).map (mkRow p)

/-- `project` returns `df, first_yes`. -/
def projectResult (p : Params) : List Row × Option ℕ :=
  (projectRows p, firstYes p)

/-- Which sidebar variable the goal-seek is solving for. -/
inductive GoalVar
  | saveRate
  | salGrowth
  | preRet
  deriving Repr, DecidableEq

/-- `project(save_rate_=var)` / `project(sal_growth_=var)` /
`project(pre_ret_=var)`: the trial parameter set used by
`gap_to_target`. -/
def setVar (p : Params) : GoalVar → ℚ → Params
  | .saveRate, x => { p with saveRate := x }
  | .salGrowth, x => { p with salGrowth := x }
  | .preRet, x => { p with preRet := x }

/-- Index of the grid segment `[a+k, a+k+1]` containing `t`, for
`a < t < a + 79`. -/
def interpIdx (a : ℕ) (t : ℚ) : ℕ := (⌊t⌋ - (a : ℤ)).toNat

/-- `np.interp(t, ages, f)` for the 80-point grid
`ages[i] = a + i`, `0 ≤ i ≤ 79`: clamps outside the grid and, inside it,
interpolates linearly on the segment `[a+k, a+k+1]` containing `t`
(grid spacing is 1, so the divided difference is just `f (k+1) - f k`). -/
def interpAges (a : ℕ) (f : ℕ → ℚ) (t : ℚ) : ℚ :=
  if t ≤ (a : ℚ) then f 0
  else if (a : ℚ) + 79 ≤ t then f 79
  else
    f (interpIdx a t) + (t - ((a : ℚ) + interpIdx a t)) *
      (f (interpIdx a t + 1) - f (interpIdx a t))

/-- `gap_to_target(var)`: rerun `project` with the chosen variable set to
`x`, interpolate the "Real Portfolio" column of the resulting data frame
at `age_target`, and subtract `nest_target`. -/
def gapToTarget (p : Params) (v : GoalVar) (x : ℚ) : ℚ :=
  interpAges p.currAge
      (fun i => ((projectRows (setVar p v x)).getD i dummyRow).realPortfolio)
      p.ageTarget -
    p.nestTarget

/-- The per-variable brackets passed to `brentq`. -/
def bounds : GoalVar → ℚ × ℚ
  | .saveRate => (0, 1)
  | .salGrowth => (0, 1 / 2)
  | .preRet => (0, 3 / 10)

/-- Fuelled bisection on a bracket. -/
def bisect (f : ℚ → ℚ) : ℕ → ℚ → ℚ → ℚ
  | 0, a, b => (a + b) / 2
  | n + 1, a, b =>
    let m := (a + b) / 2
    if f a * f m ≤ 0 then bisect f n a m else bisect f n m b

/-- Modelled from the spec: SciPy's `brentq` is not part of this
repository; per the spec it is "a bracketing root-finder (e.g., Brent's
method) requiring gap(low) and gap(high) to have opposite signs", whose
failure — `gap(low)` and `gap(high)` sharing the same sign — surfaces as
the `ValueError` that `app.py` catches.  The success branch is modelled
by fuelled bisection. -/
def brentqModel (f : ℚ → ℚ) (a b : ℚ) : Except Unit ℚ :=
  if 0 < f a * f b then .error () else .ok (bisect f 60 a b)

/-- The goal-seek handler (section 7 of `app.py`): look up the bracket
for the chosen variable, run the root-finder on `gap_to_target`, and
turn its `ValueError` into the "Target unreachable even at extreme
settings." message (`.error ()`). -/
def goalSeek (p : Params) (v : GoalVar) : Except Unit ℚ :=
  brentqModel (gapToTarget p v) (bounds v).1 (bounds v).2

/-! ### Basic unfolding lemmas about the projection loop -/

lemma portf_zero (p : Params) : portf p 0 = p.currPortf := rfl

lemma loop_snd_zero (p : Params) : (loop p 0).2 = canRetire p 0 := rfl

lemma loop_snd_succ (p : Params) (i : ℕ) :
    (loop p (i + 1)).2 = ((loop p i).2 || canRetire p (i + 1)) := rfl

lemma retiredBefore_succ (p : Params) (i : ℕ) :
    retiredBefore p (i + 1) = (loop p i).2 := rfl

lemma portf_succ (p : Params) (i : ℕ) :
    portf p (i + 1) =
      portf p i + savings p (i + 1) + portf p i * growthRate p (i + 1) := by
  show (loop p (i + 1)).1 = _
  rw [loop]
  simp only [savings, salary, growthRate, retiredBefore_succ, portf, ite_mul,
    zero_mul]

lemma loop_snd_eq_true_iff (p : Params) (i : ℕ) :
    (loop p i).2 = true ↔ ∃ j, j ≤ i ∧ canRetire p j = true := by
  induction i with
  | zero =>
    rw [loop_snd_zero]
    constructor
    · exact fun h => ⟨0, le_refl 0, h⟩
    · rintro ⟨j, hj, hc⟩
      rwa [Nat.le_zero.mp hj] at hc
  | succ m ih =>
    rw [loop_snd_succ, Bool.or_eq_true, ih]
    constructor
    · rintro (⟨j, hj, hc⟩ | hc)
      · exact ⟨j, hj.trans (Nat.le_succ m), hc⟩
      · exact ⟨m + 1, le_refl _, hc⟩
    · rintro ⟨j, hj, hc⟩
      rcases Nat.lt_succ_iff_lt_or_eq.mp (Nat.lt_succ_of_le hj) with h | h
      · exact Or.inl ⟨j, Nat.lt_succ_iff.mp h, hc⟩
      · exact Or.inr (h ▸ hc)

lemma retiredBefore_eq_false (p : Params) (i : ℕ)
    (h : ∀ j, j < i → canRetire p j = false) : retiredBefore p i = false := by
  cases i with
  | zero => rfl
  | succ m =>
    rw [retiredBefore_succ]
    rw [Bool.eq_false_iff]
    intro hb
    obtain ⟨j, hj, hc⟩ := (loop_snd_eq_true_iff p m).mp hb
    rw [h j (Nat.lt_succ_of_le hj)] at hc
    exact Bool.false_ne_true hc

lemma retiredBefore_eq_true (p : Params) (k i : ℕ)
    (hk : canRetire p k = true) (hki : k < i) : retiredBefore p i = true := by
  cases i with
  | zero => omega
  | succ m =>
    rw [retiredBefore_succ]
    exact (loop_snd_eq_true_iff p m).mpr ⟨k, Nat.lt_succ_iff.mp hki, hk⟩

/-- The eligibility test, rewritten through the derived columns: since
`age[i] = curr_age + i`, the clause `age[i] >= curr_age` of line 150
always holds, so the test reduces to the withdrawal condition alone. -/
lemma canRetire_eq_true_iff (p : Params) (i : ℕ) :
    canRetire p i = true ↔ p.desireSp ≤ realWd p i + realPen p i := by
  simp [canRetire, trigAt, realWd, realPortf, realPen, Nat.le_add_right]

/-! ### `List.find?` over `List.range` -/

lemma find?_range_eq_some (q : ℕ → Bool) (n k : ℕ) (hk : k < n)
    (ht : q k = true) (hlt : ∀ j, j < k → q j = false) :
    (List.range n).find? q = some k := by
  induction n with
  | zero => omega
  | succ m ih =>
    rw [List.range_succ, List.find?_append]
    rcases Nat.lt_succ_iff_lt_or_eq.mp hk with h | h
    · rw [ih h]
      rfl
    · subst h
      have hnone : (List.range k).find? q = none :=
        List.find?_eq_none.mpr fun x hx => by
          simp only [List.mem_range] at hx
          simp [hlt x hx]
      rw [hnone]
      simp [ht]

lemma find?_range_spec (q : ℕ → Bool) (n k : ℕ)
    (h : (List.range n).find? q = some k) :
    k < n ∧ q k = true ∧ ∀ j, j < k → q j = false := by
  induction n with
  | zero => simp [List.range_zero] at h
  | succ m ih =>
    rw [List.range_succ, List.find?_append] at h
    cases hfm : (List.range m).find? q with
    | some a =>
      rw [hfm] at h
      simp only [Option.or_some] at h
      obtain rfl : a = k := by injection h
      obtain ⟨h1, h2, h3⟩ := ih hfm
      exact ⟨h1.trans (Nat.lt_succ_self m), h2, h3⟩
    | none =>
      rw [hfm] at h
      simp only [Option.none_or] at h
      have hnone := List.find?_eq_none.mp hfm
      by_cases hm : q m = true
      · rw [List.find?_cons_of_pos _ hm] at h
        obtain rfl : m = k := by injection h
        refine ⟨Nat.lt_succ_self m, hm, fun j hj => ?_⟩
        have := hnone j (List.mem_range.mpr hj)
        simpa using this
      · rw [List.find?_cons_of_neg _ hm, List.find?_nil] at h
        exact absurd h (by simp)

lemma firstYes_spec (p : Params) (k : ℕ) (h : firstYes p = some k) :
    k < 80 ∧ canRetire p k = true ∧ ∀ j, j < k → canRetire p j = false :=
  find?_range_spec _ 80 k h

/-! ### Row lookup and interpolation plumbing -/

lemma projectRows_getD (p : Params) (i : ℕ) (hi : i < 80) :
    (projectRows p).getD i dummyRow = mkRow p i := by
  rw [projectRows, List.getD_eq_getElem?_getD, List.getElem?_map,
    List.getElem?_range hi]
  rfl

lemma interpAges_congr (a : ℕ) (f g : ℕ → ℚ) (t : ℚ)
    (h : ∀ i, i ≤ 79 → f i = g i) : interpAges a f t = interpAges a g t := by
  unfold interpAges
  split_ifs with h1 h2
  · exact h 0 (by omega)
  · exact h 79 (by omega)
  · have hfl : (⌊t⌋ : ℤ) < (a : ℤ) + 79 := by
      have : t < (a : ℚ) + 79 := lt_of_not_le h2
      refine Int.floor_lt.mpr ?_
      push_cast
      linarith
    have hk : interpIdx a t ≤ 78 := by
      unfold interpIdx
      omega
    rw [h (interpIdx a t) (by omega), h (interpIdx a t + 1) (by omega)]

/-- `gap_to_target` reads the "Real Portfolio" column of the freshly
projected data frame; on indices `0..79` that column is
`realPortf` of the trial parameter set. -/
lemma gapToTarget_eq (p : Params) (v : GoalVar) (x : ℚ) :
    gapToTarget p v x =
      interpAges p.currAge (realPortf (setVar p v x)) p.ageTarget -
        p.nestTarget := by
  unfold gapToTarget
  congr 1
  refine interpAges_congr _ _ _ _ fun i hi => ?_
  rw [projectRows_getD _ i (by omega)]
  rfl

/-! ### The projection ignores the goal-seek targets -/

lemma loop_targets (p : Params) (a n : ℚ) (i : ℕ) :
    loop { p with ageTarget := a, nestTarget := n } i = loop p i := by
  induction i with
  | zero => rfl
  | succ m ih =>
    rw [loop, loop, ih]
    rfl

lemma canRetire_targets (p : Params) (a n : ℚ) (i : ℕ) :
    canRetire { p with ageTarget := a, nestTarget := n } i = canRetire p i := by
  unfold canRetire portf
  rw [loop_targets]
  rfl

lemma retiredBefore_targets (p : Params) (a n : ℚ) (i : ℕ) :
    retiredBefore { p with ageTarget := a, nestTarget := n } i =
      retiredBefore p i := by
  cases i with
  | zero => rfl
  | succ m => rw [retiredBefore_succ, retiredBefore_succ, loop_targets]

lemma salary_targets (p : Params) (a n : ℚ) (i : ℕ) :
    salary { p with ageTarget := a, nestTarget := n } i = salary p i := by
  unfold salary
  rw [retiredBefore_targets]
  rfl

lemma portf_targets (p : Params) (a n : ℚ) (i : ℕ) :
    portf { p with ageTarget := a, nestTarget := n } i = portf p i := by
  unfold portf
  rw [loop_targets]

lemma realPortf_targets (p : Params) (a n : ℚ) (i : ℕ) :
    realPortf { p with ageTarget := a, nestTarget := n } i = realPortf p i := by
  unfold realPortf portf
  rw [loop_targets]

lemma mkRow_targets (p : Params) (a n : ℚ) (i : ℕ) :
    mkRow { p with ageTarget := a, nestTarget := n } i = mkRow p i := by
  unfold mkRow savings realWd
  rw [salary_targets, portf_targets, realPortf_targets, canRetire_targets]

/-! ### The portfolio recurrence while no retirement has triggered -/

/-- The portfolio recurrence of lines 141–144 specialised to runs in
which the retirement trigger has not yet fired: full savings
contributions and the pre-retirement growth rate. -/
def portfU (p : Params) : ℕ → ℚ
  | 0 => p.currPortf
  | i + 1 =>
    portfU p i + origSalary p (i + 1) * p.saveRate + portfU p i * p.preRet

lemma portf_eq_portfU (p : Params) (i : ℕ)
    (h : ∀ j, j < i → canRetire p j = false) : portf p i = portfU p i := by
  induction i with
  | zero => rfl
  | succ m ih =>
    have hrb : retiredBefore p (m + 1) = false := retiredBefore_eq_false p _ h
    rw [portf_succ, portfU, savings, salary, growthRate, hrb]
    simp only [Bool.false_eq_true, if_false]
    rw [ih fun j hj => h j (hj.trans (Nat.lt_succ_self m))]

lemma origSalary_nonneg (p : Params) (h1 : 0 ≤ p.currSal)
    (h2 : 0 ≤ p.salGrowth) (i : ℕ) : 0 ≤ origSalary p i :=
  mul_nonneg h1 (pow_nonneg (by linarith) i)

lemma portfU_nonneg (p : Params) (h1 : 0 ≤ p.currSal) (h2 : 0 ≤ p.salGrowth)
    (h3 : 0 ≤ p.saveRate) (h4 : 0 ≤ p.currPortf) (h5 : 0 ≤ p.preRet) (i : ℕ) :
    0 ≤ portfU p i := by
  induction i with
  | zero => exact h4
  | succ m ih =>
    rw [portfU]
    have hs := origSalary_nonneg p h1 h2 (m + 1)
    have := mul_nonneg hs h3
    have := mul_nonneg ih h5
    linarith

lemma portfU_mono_saveRate (p : Params) (x1 x2 : ℚ) (hx : x1 ≤ x2)
    (hsal : 0 ≤ p.currSal) (hg : 0 ≤ p.salGrowth) (hr : 0 ≤ p.preRet) (i : ℕ) :
    portfU { p with saveRate := x1 } i ≤ portfU { p with saveRate := x2 } i := by
  induction i with
  | zero => exact le_refl _
  | succ m ih =>
    show portfU { p with saveRate := x1 } m + origSalary p (m + 1) * x1 +
        portfU { p with saveRate := x1 } m * p.preRet ≤
      portfU { p with saveRate := x2 } m + origSalary p (m + 1) * x2 +
        portfU { p with saveRate := x2 } m * p.preRet
    have hS := origSalary_nonneg p hsal hg (m + 1)
    have h1 := mul_le_mul_of_nonneg_left hx hS
    have h2 := mul_le_mul_of_nonneg_right ih hr
    linarith

lemma portfU_mono_salGrowth (p : Params) (x1 x2 : ℚ) (hx0 : 0 ≤ x1)
    (hx : x1 ≤ x2) (hsal : 0 ≤ p.currSal) (hs : 0 ≤ p.saveRate)
    (hr : 0 ≤ p.preRet) (i : ℕ) :
    portfU { p with salGrowth := x1 } i ≤
      portfU { p with salGrowth := x2 } i := by
  have hOS : ∀ j : ℕ, p.currSal * (1 + x1) ^ j ≤ p.currSal * (1 + x2) ^ j :=
    fun j =>
      mul_le_mul_of_nonneg_left
        (pow_le_pow_left₀ (by linarith) (by linarith) j) hsal
  induction i with
  | zero => exact le_refl _
  | succ m ih =>
    show portfU { p with salGrowth := x1 } m +
        p.currSal * (1 + x1) ^ (m + 1) * p.saveRate +
        portfU { p with salGrowth := x1 } m * p.preRet ≤
      portfU { p with salGrowth := x2 } m +
        p.currSal * (1 + x2) ^ (m + 1) * p.saveRate +
        portfU { p with salGrowth := x2 } m * p.preRet
    have h1 := mul_le_mul_of_nonneg_right (hOS (m + 1)) hs
    have h2 := mul_le_mul_of_nonneg_right ih hr
    linarith

lemma portfU_mono_preRet (p : Params) (x1 x2 : ℚ) (hx0 : 0 ≤ x1)
    (hx : x1 ≤ x2) (hsal : 0 ≤ p.currSal) (hg : 0 ≤ p.salGrowth)
    (hs : 0 ≤ p.saveRate) (hpf : 0 ≤ p.currPortf) (i : ℕ) :
    portfU { p with preRet := x1 } i ≤ portfU { p with preRet := x2 } i := by
  induction i with
  | zero => exact le_refl _
  | succ m ih =>
    show portfU { p with preRet := x1 } m +
        origSalary p (m + 1) * p.saveRate +
        portfU { p with preRet := x1 } m * x1 ≤
      portfU { p with preRet := x2 } m +
        origSalary p (m + 1) * p.saveRate +
        portfU { p with preRet := x2 } m * x2
    have ha2 : 0 ≤ portfU { p with preRet := x2 } m :=
      portfU_nonneg { p with preRet := x2 } hsal hg hs hpf (hx0.trans hx) m
    have h1 := mul_le_mul_of_nonneg_right ih hx0
    have h2 := mul_le_mul_of_nonneg_left hx ha2
    linarith

/-! ### Non-negativity of the projected columns -/

lemma salary_nonneg (p : Params) (h1 : 0 ≤ p.currSal) (h2 : 0 ≤ p.salGrowth)
    (i : ℕ) : 0 ≤ salary p i := by
  unfold salary
  split_ifs
  · exact le_refl 0
  · exact origSalary_nonneg p h1 h2 i

lemma savings_nonneg (p : Params) (h1 : 0 ≤ p.currSal) (h2 : 0 ≤ p.salGrowth)
    (h3 : 0 ≤ p.saveRate) (i : ℕ) : 0 ≤ savings p i :=
  mul_nonneg (salary_nonneg p h1 h2 i) h3

lemma growthRate_nonneg (p : Params) (h1 : 0 ≤ p.preRet) (h2 : 0 ≤ p.postRet)
    (i : ℕ) : 0 ≤ growthRate p i := by
  unfold growthRate
  split_ifs
  · exact h2
  · exact h1

lemma portf_nonneg (p : Params) (h1 : 0 ≤ p.currSal) (h2 : 0 ≤ p.salGrowth)
    (h3 : 0 ≤ p.saveRate) (h4 : 0 ≤ p.currPortf) (h5 : 0 ≤ p.preRet)
    (h6 : 0 ≤ p.postRet) (i : ℕ) : 0 ≤ portf p i := by
  induction i with
  | zero => rw [portf_zero]; exact h4
  | succ m ih =>
    rw [portf_succ]
    have hs := savings_nonneg p h1 h2 h3 (m + 1)
    have hg := mul_nonneg ih (growthRate_nonneg p h5 h6 (m + 1))
    linarith

lemma realPortf_nonneg (p : Params) (h1 : 0 ≤ p.currSal) (h2 : 0 ≤ p.salGrowth)
    (h3 : 0 ≤ p.saveRate) (h4 : 0 ≤ p.currPortf) (h5 : 0 ≤ p.preRet)
    (h6 : 0 ≤ p.postRet) (h7 : 0 ≤ p.infl) (i : ℕ) : 0 ≤ realPortf p i :=
  div_nonneg (portf_nonneg p h1 h2 h3 h4 h5 h6 i)
    (pow_nonneg (by linarith) i)

/-! ### Step equation for the loop, and concrete parameter sets -/

lemma loop_succ_eq (p : Params) (i : ℕ) :
    loop p (i + 1) =
      (portf p i +
          (if (loop p i).2 then 0 else origSalary p (i + 1) * p.saveRate) +
          portf p i * (if (loop p i).2 then p.postRet else p.preRet),
        (loop p i).2 ||
          trigAt p (i + 1)
            (portf p i +
              (if (loop p i).2 then 0 else origSalary p (i + 1) * p.saveRate) +
              portf p i *
                (if (loop p i).2 then p.postRet else p.preRet))) := rfl

/-- The sidebar defaults of `app.py`. -/
def pDef : Params :=
  ⟨2025, 24, 45000, 3 / 100, 1 / 4, 7000, 6 / 100, 1 / 20, 1 / 50, 1 / 25,
    1 / 5, 7000, 10000, 5000000, 35⟩

/-- Defaults with a desired spending low enough that row 0 already
satisfies the withdrawal condition (real withdrawal 224 ≥ 100) while
`age = 24 < age_target = 35`. -/
def pEasy : Params := { pDef with desireSp := 100 }

/-- Salary 100, zero growth/returns/inflation/tax, SWR 4 %, desired
spending 4 (portfolio threshold 100): at savings rate 1 the trigger
fires in year 1 and freezes the portfolio at 100, while at savings
rate 7/10 it fires in year 2 at 140. -/
def pC2cex : Params :=
  ⟨2025, 24, 100, 0, 7 / 10, 0, 0, 0, 0, 1 / 25, 0, 0, 4, 0, 35⟩

/-- As `pC2cex` but with an unattainable desired spending, so that no
row ever triggers retirement. -/
def pNoTrig : Params := { pC2cex with desireSp := 1000000 }

/-- Trigger exactly at the last simulated row: portfolio grows by 100
per year with all rates zero, SWR 10 %, desired spending 790, reached
first when the portfolio hits 7900 at index 79. -/
def pLate : Params :=
  ⟨2025, 24, 100, 0, 1, 0, 0, 0, 0, 1 / 10, 0, 0, 790, 0, 35⟩

/-- Defaults with the goal-seek scenario of the spec: nest-egg target
10⁹ at target age `curr_age + 1 = 25`. -/
def pGoal : Params :=
  { pDef with nestTarget := 1000000000, ageTarget := 25 }

lemma pLate_loop (j : ℕ) (hj : j ≤ 78) :
    loop pLate j = (100 * (j : ℚ), false) := by
  induction j with
  | zero =>
    show (pLate.currPortf, trigAt pLate 0 pLate.currPortf) = _
    norm_num [trigAt, pLate]
  | succ m ih =>
    have hm := ih (by omega)
    have hsnd : (loop pLate m).2 = false := by rw [hm]
    have hpf : portf pLate m = 100 * (m : ℚ) := by
      unfold portf
      rw [hm]
    have hcast : (m : ℚ) ≤ 77 := by
      exact_mod_cast (by omega : m ≤ 77)
    rw [loop_succ_eq, hsnd, hpf]
    simp only [Bool.false_eq_true, if_false, Bool.false_or, Prod.mk.injEq]
    refine ⟨?_, ?_⟩
    · norm_num [origSalary, pLate]
      ring
    · rw [trigAt]
      norm_num [origSalary, pLate]
      linarith

lemma pLate_portf79 : portf pLate 79 = 7900 := by
  have hm := pLate_loop 78 (by omega)
  have hsnd : (loop pLate 78).2 = false := by rw [hm]
  have hpf : portf pLate 78 = 7800 := by
    unfold portf
    rw [hm]
    norm_num
  unfold portf
  rw [loop_succ_eq, hsnd, hpf]
  norm_num [origSalary, pLate]

lemma pLate_canRetire79 : canRetire pLate 79 = true := by
  rw [canRetire, pLate_portf79, trigAt]
  norm_num [pLate]

lemma pLate_not_canRetire (j : ℕ) (hj : j < 79) :
    canRetire pLate j = false := by
  have hm := pLate_loop j (by omega)
  have hpf : portf pLate j = 100 * (j : ℚ) := by
    unfold portf
    rw [hm]
  rw [canRetire, hpf, trigAt]
  have hcast : (j : ℚ) ≤ 78 := by
    exact_mod_cast (by omega : j ≤ 78)
  norm_num [pLate]
  linarith

/-! ### Claim theorems -/

/-- **C1, counterexample.**  With the default inputs and a desired
spending of 100, row 0 satisfies the withdrawal condition, its age
(24) is strictly below `target_retirement_age` (35), and yet the code
marks it `can_retire = "YES"`: the eligibility test of line 150 gates on
`age[i] >= curr_age`, not on the target age, refuting the
target-age-gated reading. -/
theorem c1_counterexample :
    pEasy.desireSp ≤ realWd pEasy 0 + realPen pEasy 0 ∧
    (pEasy.currAge : ℚ) + 0 < pEasy.ageTarget ∧
    canRetire pEasy 0 = true := by
  refine ⟨?_, ?_, ?_⟩
  · norm_num [realWd, realPortf, realPen, portf, loop, trigAt, pEasy, pDef]
  · norm_num [pEasy, pDef]
  · norm_num [canRetire, trigAt, portf, loop, pEasy, pDef]

/-- **C1, amended.**  For every year index `i` in `0..79`, the
projection marks `can_retire[i]` true if and only if
`real_sustainable_withdrawal[i]` plus the pension amount payable at that
age is at least `desired_annual_spending`; the age clause of the code is
`age[i] ≥ curr_age`, which always holds, so `target_retirement_age`
plays no part in eligibility. -/
theorem c1_eligibility_amended (p : Params) (i : ℕ) (hi : i < 80) :
    canRetire p i = true ↔ p.desireSp ≤ realWd p i + realPen p i :=
  canRetire_eq_true_iff p i

theorem c1_eligibility_amended_witness :
    0 < 80 ∧
    (canRetire pEasy 0 = true ↔
      pEasy.desireSp ≤ realWd pEasy 0 + realPen pEasy 0) :=
  ⟨by norm_num, c1_eligibility_amended pEasy 0 (by norm_num)⟩

/-- **C3.**  If the eligibility test holds at index `k`, then every
later row `i ≤ 79` of the output has `nominal_salary[i] = 0` and
`nominal_savings_contribution[i] = 0`: the in-place zeroing at the first
trigger is never undone (the `retired` flag is monotone), so the trigger
is irreversible. -/
theorem c3_zero_after_trigger (p : Params) (k i : ℕ)
    (hk : canRetire p k = true) (hki : k < i) (hi : i ≤ 79) :
    salary p i = 0 ∧ savings p i = 0 := by
  have h := retiredBefore_eq_true p k i hk hki
  constructor
  · unfold salary
    rw [h]
    simp
  · unfold savings salary
    rw [h]
    simp

theorem c3_zero_after_trigger_witness :
    canRetire pEasy 0 = true ∧ 0 < 1 ∧ 1 ≤ 79 ∧
    (salary pEasy 1 = 0 ∧ savings pEasy 1 = 0) :=
  ⟨by norm_num [canRetire, trigAt, portf, loop, pEasy, pDef], by norm_num,
    by norm_num,
    c3_zero_after_trigger pEasy 0 1
      (by norm_num [canRetire, trigAt, portf, loop, pEasy, pDef])
      (by norm_num) (by norm_num)⟩

/-- **C4.**  If the first retirement trigger is at index `k`, every
portfolio update at `0 < i ≤ k` uses `pre_ret` and every update at
`k < i ≤ 79` uses `post_ret`: the `retired` flag consulted by the growth
step of iteration `i` reflects only rows before `i`, so the regime
switch takes effect the year after the trigger. -/
theorem c4_growth_regime (p : Params) (k : ℕ) (hf : firstYes p = some k) :
    (∀ i, 0 < i → i ≤ k → growthRate p i = p.preRet) ∧
    (∀ i, k < i → i ≤ 79 → growthRate p i = p.postRet) := by
  obtain ⟨hk80, hk, hmin⟩ := firstYes_spec p k hf
  constructor
  · intro i h0 hik
    unfold growthRate
    rw [retiredBefore_eq_false p i fun j hj => hmin j (lt_of_lt_of_le hj hik)]
    simp
  · intro i hki hi79
    unfold growthRate
    rw [retiredBefore_eq_true p k i hk hki]
    simp

theorem c4_growth_regime_witness :
    firstYes pEasy = some 0 ∧
    ((∀ i, 0 < i → i ≤ 0 → growthRate pEasy i = pEasy.preRet) ∧
      (∀ i, 0 < i → i ≤ 79 → growthRate pEasy i = pEasy.postRet)) := by
  have h0 : canRetire pEasy 0 = true := by
    norm_num [canRetire, trigAt, portf, loop, pEasy, pDef]
  have hfy : firstYes pEasy = some 0 :=
    find?_range_eq_some _ 80 0 (by omega) h0 fun j hj => absurd hj (by omega)
  exact ⟨hfy, c4_growth_regime pEasy 0 hfy⟩

/-- **C7.**  For every parameter set the Projector returns exactly 80
rows; row `i` has `year = start_year + i` and `age = curr_age + i`, so
both columns are strictly increasing. -/
theorem c7_shape (p : Params) :
    (projectRows p).length = 80 ∧
    (∀ i, i < 80 → ((projectRows p).getD i dummyRow).year = p.startYear + i) ∧
    (∀ i, i < 80 → ((projectRows p).getD i dummyRow).age = p.currAge + i) ∧
    (∀ i j, i < j → j < 80 →
      ((projectRows p).getD i dummyRow).year <
          ((projectRows p).getD j dummyRow).year ∧
        ((projectRows p).getD i dummyRow).age <
          ((projectRows p).getD j dummyRow).age) := by
  refine ⟨by simp [projectRows], ?_, ?_, ?_⟩
  · intro i hi
    rw [projectRows_getD p i hi]
    rfl
  · intro i hi
    rw [projectRows_getD p i hi]
    rfl
  · intro i j hij hj
    rw [projectRows_getD p i (hij.trans hj), projectRows_getD p j hj]
    unfold mkRow
    exact ⟨Nat.add_lt_add_left hij _, Nat.add_lt_add_left hij _⟩

theorem c7_shape_witness :
    (0 : ℕ) < 80 ∧ (1 : ℕ) < 80 ∧
    ((projectRows pDef).getD 0 dummyRow).age = pDef.currAge + 0 ∧
    ((projectRows pDef).getD 0 dummyRow).year <
      ((projectRows pDef).getD 1 dummyRow).year :=
  ⟨by norm_num, by norm_num, (c7_shape pDef).2.2.1 0 (by norm_num),
    ((c7_shape pDef).2.2.2 0 1 (by norm_num) (by norm_num)).1⟩

/-- **C8.**  The projection output — the full 80-row table and
`first_yes` — is identical across any two values of
`target_retirement_age` and `nest_egg_target`: `project` never reads
either of them (line 150 compares against `curr_age`), so the goal-seek
targets influence only `gap_to_target`. -/
theorem c8_targets_independent (p : Params) (a n : ℚ) :
    projectResult { p with ageTarget := a, nestTarget := n } =
      projectResult p := by
  unfold projectResult projectRows firstYes
  have hrows : mkRow { p with ageTarget := a, nestTarget := n } = mkRow p :=
    funext fun i => mkRow_targets p a n i
  have hcan : (fun i => canRetire { p with ageTarget := a, nestTarget := n } i)
      = fun i => canRetire p i :=
    funext fun i => canRetire_targets p a n i
  rw [hrows, hcan]

/-- **C2, counterexample.**  Two runs of `pC2cex` differing only in the
savings rate (1 versus 7/10, both in `[0,1]`, all other inputs
non-negative): the run with the larger rate triggers retirement in year
1 and its portfolio freezes at 100, while the smaller rate accumulates
to 140 by year 2, so `real_portfolio_value[2]` is *smaller* for the
larger savings rate. -/
theorem c2_counterexample :
    (0 : ℚ) ≤ 7 / 10 ∧ (7 : ℚ) / 10 ≤ 1 ∧
    realPortf (setVar pC2cex GoalVar.saveRate 1) 2 <
      realPortf (setVar pC2cex GoalVar.saveRate (7 / 10)) 2 := by
  refine ⟨by norm_num, by norm_num, ?_⟩
  norm_num [setVar, realPortf, portf, loop, trigAt, origSalary, pC2cex]

/-- **C2, amended.**  Holding all else fixed and non-negative,
increasing `savings_rate`, `salary_growth_rate` or
`pre_retirement_return` never decreases `real_portfolio_value[i]`,
*provided no row before `i` has triggered retirement in either run* —
the retirement trigger can otherwise freeze the better-funded run
earlier and reverse the comparison. -/
theorem c2_monotone_amended (p : Params) (v : GoalVar) (x1 x2 : ℚ) (i : ℕ)
    (hx0 : 0 ≤ x1) (hx : x1 ≤ x2)
    (hsal : 0 ≤ p.currSal) (hpf : 0 ≤ p.currPortf) (hg : 0 ≤ p.salGrowth)
    (hs : 0 ≤ p.saveRate) (hr : 0 ≤ p.preRet) (hinfl : 0 ≤ p.infl)
    (hi : i < 80)
    (h1 : ∀ j, j < i → canRetire (setVar p v x1) j = false)
    (h2 : ∀ j, j < i → canRetire (setVar p v x2) j = false) :
    realPortf (setVar p v x1) i ≤ realPortf (setVar p v x2) i := by
  have hpow : (0 : ℚ) < (1 + p.infl) ^ i := pow_pos (by linarith) i
  cases v with
  | saveRate =>
    simp only [setVar] at h1 h2 ⊢
    unfold realPortf
    rw [portf_eq_portfU _ i h1, portf_eq_portfU _ i h2]
    show portfU { p with saveRate := x1 } i / (1 + p.infl) ^ i ≤
      portfU { p with saveRate := x2 } i / (1 + p.infl) ^ i
    exact (div_le_div_iff_of_pos_right hpow).mpr
      (portfU_mono_saveRate p x1 x2 hx hsal hg hr i)
  | salGrowth =>
    simp only [setVar] at h1 h2 ⊢
    unfold realPortf
    rw [portf_eq_portfU _ i h1, portf_eq_portfU _ i h2]
    show portfU { p with salGrowth := x1 } i / (1 + p.infl) ^ i ≤
      portfU { p with salGrowth := x2 } i / (1 + p.infl) ^ i
    exact (div_le_div_iff_of_pos_right hpow).mpr
      (portfU_mono_salGrowth p x1 x2 hx0 hx hsal hs hr i)
  | preRet =>
    simp only [setVar] at h1 h2 ⊢
    unfold realPortf
    rw [portf_eq_portfU _ i h1, portf_eq_portfU _ i h2]
    show portfU { p with preRet := x1 } i / (1 + p.infl) ^ i ≤
      portfU { p with preRet := x2 } i / (1 + p.infl) ^ i
    exact (div_le_div_iff_of_pos_right hpow).mpr
      (portfU_mono_preRet p x1 x2 hx0 hx hsal hg hs hpf i)

theorem c2_monotone_amended_witness :
    (∀ j, j < 1 → canRetire (setVar pNoTrig GoalVar.saveRate 0) j = false) ∧
    (∀ j, j < 1 → canRetire (setVar pNoTrig GoalVar.saveRate 1) j = false) ∧
    realPortf (setVar pNoTrig GoalVar.saveRate 0) 1 ≤
      realPortf (setVar pNoTrig GoalVar.saveRate 1) 1 := by
  have ha : ∀ j, j < 1 →
      canRetire (setVar pNoTrig GoalVar.saveRate 0) j = false := by
    intro j hj
    obtain rfl : j = 0 := by omega
    norm_num [canRetire, trigAt, portf, loop, setVar, pNoTrig, pC2cex]
  have hb : ∀ j, j < 1 →
      canRetire (setVar pNoTrig GoalVar.saveRate 1) j = false := by
    intro j hj
    obtain rfl : j = 0 := by omega
    norm_num [canRetire, trigAt, portf, loop, setVar, pNoTrig, pC2cex]
  exact ⟨ha, hb,
    c2_monotone_amended pNoTrig GoalVar.saveRate 0 1 1 (by norm_num)
      (by norm_num) (by norm_num [pNoTrig, pC2cex])
      (by norm_num [pNoTrig, pC2cex]) (by norm_num [pNoTrig, pC2cex])
      (by norm_num [pNoTrig, pC2cex]) (by norm_num [pNoTrig, pC2cex])
      (by norm_num [pNoTrig, pC2cex]) (by norm_num) ha hb⟩

/-- **C5.**  If the solver returns `x*` with `|gap(x*)| ≤ ε` (the
solver's tolerance, per the claim's own equivalence `gap(x*) ≈ 0`), then
re-running the Projector with the chosen variable set to `x*` and
linearly interpolating its real portfolio series at
`target_retirement_age` lands within `ε` of `nest_egg_target`:
`gap_to_target` itself reruns `project` and reads the "Real Portfolio"
column of the fresh data frame. -/
theorem c5_roundtrip (p : Params) (v : GoalVar) (x ε : ℚ)
    (h : |gapToTarget p v x| ≤ ε) :
    |interpAges p.currAge (realPortf (setVar p v x)) p.ageTarget -
        p.nestTarget| ≤ ε := by
  rwa [gapToTarget_eq] at h

set_option maxRecDepth 10000 in
theorem c5_roundtrip_witness :
    |gapToTarget pGoal GoalVar.saveRate (1 / 4)| ≤ 1000000000 ∧
    |interpAges pGoal.currAge
          (realPortf (setVar pGoal GoalVar.saveRate (1 / 4)))
          pGoal.ageTarget -
        pGoal.nestTarget| ≤ 1000000000 := by
  have h : |gapToTarget pGoal GoalVar.saveRate (1 / 4)| ≤ 1000000000 := by
    rw [gapToTarget_eq]
    norm_num [interpAges, interpIdx, setVar, realPortf, portf, loop, trigAt,
      origSalary, abs_le, pGoal, pDef]
  exact ⟨h, c5_roundtrip pGoal GoalVar.saveRate (1 / 4) 1000000000 h⟩

/-- **C6.**  Whenever `gap` takes the same sign at both ends of the
chosen variable's bracket, the goal-seek returns the distinct
"target unreachable" condition (`.error ()`) rather than a root or a
crash — the `ValueError` raised by the bracketing root-finder is caught
at lines 211–216 of `app.py`. -/
theorem c6_unreachable (p : Params) (v : GoalVar)
    (h : 0 < gapToTarget p v (bounds v).1 * gapToTarget p v (bounds v).2) :
    goalSeek p v = .error () := by
  unfold goalSeek brentqModel
  rw [if_pos h]

set_option maxRecDepth 10000 in
set_option maxHeartbeats 2000000 in
theorem c6_unreachable_witness :
    0 < gapToTarget pGoal GoalVar.saveRate (bounds GoalVar.saveRate).1 *
        gapToTarget pGoal GoalVar.saveRate (bounds GoalVar.saveRate).2 ∧
    goalSeek pGoal GoalVar.saveRate = .error () := by
  have h : 0 < gapToTarget pGoal GoalVar.saveRate (bounds GoalVar.saveRate).1 *
      gapToTarget pGoal GoalVar.saveRate (bounds GoalVar.saveRate).2 := by
    simp only [bounds]
    rw [gapToTarget_eq, gapToTarget_eq]
    norm_num [interpAges, interpIdx, setVar, realPortf, portf, loop, trigAt,
      origSalary, pGoal, pDef]
  exact ⟨h, c6_unreachable pGoal GoalVar.saveRate h⟩

/-- **C9.**  With every monetary input and rate non-negative and
`tax_drag_rate ≤ 1`, every numeric entry of every projection row is
non-negative for all 80 rows. -/
theorem c9_nonneg (p : Params) (h1 : 0 ≤ p.currSal) (h2 : 0 ≤ p.currPortf)
    (h3 : 0 ≤ p.pension) (h4 : 0 ≤ p.desireSp) (h5 : 0 ≤ p.salGrowth)
    (h6 : 0 ≤ p.saveRate) (h7 : 0 ≤ p.preRet) (h8 : 0 ≤ p.postRet)
    (h9 : 0 ≤ p.infl) (h10 : 0 ≤ p.swr) (h11 : 0 ≤ p.tax) (h12 : p.tax ≤ 1)
    (i : ℕ) (hi : i < 80) :
    0 ≤ salary p i ∧ 0 ≤ savings p i ∧ 0 ≤ portf p i ∧
      0 ≤ realPortf p i ∧ 0 ≤ realWd p i := by
  have hrp := realPortf_nonneg p h1 h5 h6 h2 h7 h8 h9 i
  refine ⟨salary_nonneg p h1 h5 i, savings_nonneg p h1 h5 h6 i,
    portf_nonneg p h1 h5 h6 h2 h7 h8 i, hrp, ?_⟩
  unfold realWd
  have hm := mul_nonneg hrp h10
  have h1t : (0 : ℚ) ≤ 1 - p.tax := by linarith
  exact mul_nonneg hm h1t

theorem c9_nonneg_witness :
    0 ≤ salary pDef 1 ∧ 0 ≤ savings pDef 1 ∧ 0 ≤ portf pDef 1 ∧
      0 ≤ realPortf pDef 1 ∧ 0 ≤ realWd pDef 1 :=
  c9_nonneg pDef (by norm_num [pDef]) (by norm_num [pDef])
    (by norm_num [pDef]) (by norm_num [pDef]) (by norm_num [pDef])
    (by norm_num [pDef]) (by norm_num [pDef]) (by norm_num [pDef])
    (by norm_num [pDef]) (by norm_num [pDef]) (by norm_num [pDef])
    (by norm_num [pDef]) 1 (by norm_num)

/-- **C10.**  When the first retirement trigger lands on the final row
(index 79), the zeroing `salary[80:] = 0` covers an empty range: every
one of the 80 rows keeps its original salary and savings, the table is
fully populated, and `first_yes = 79`.  (The embedding is total, so no
out-of-bounds access can occur.) -/
theorem c10_trigger_last_row (p : Params) (h79 : canRetire p 79 = true)
    (hprev : ∀ j, j < 79 → canRetire p j = false) :
    firstYes p = some 79 ∧ (projectRows p).length = 80 ∧
    ∀ i, i ≤ 79 → salary p i = origSalary p i ∧
      savings p i = origSalary p i * p.saveRate := by
  refine ⟨find?_range_eq_some _ 80 79 (by omega) h79 hprev,
    by simp [projectRows], ?_⟩
  intro i hi
  have hrb : retiredBefore p i = false :=
    retiredBefore_eq_false p i fun j hj => hprev j (lt_of_lt_of_le hj hi)
  constructor
  · unfold salary
    rw [hrb]
    simp
  · unfold savings salary
    rw [hrb]
    simp

theorem c10_trigger_last_row_witness :
    canRetire pLate 79 = true ∧ (∀ j, j < 79 → canRetire pLate j = false) ∧
    (firstYes pLate = some 79 ∧ (projectRows pLate).length = 80 ∧
      ∀ i, i ≤ 79 → salary pLate i = origSalary pLate i ∧
        savings pLate i = origSalary pLate i * pLate.saveRate) :=
  ⟨pLate_canRetire79, fun j hj => pLate_not_canRetire j hj,
    c10_trigger_last_row pLate pLate_canRetire79 fun j hj =>
      pLate_not_canRetire j hj⟩

end Fire
